import Mathlib

/-!
Verification of the django-gsheets core (`gsheets/mixins.py`): a shallow
embedding of the A1-range parsing, the lazily fetched sheet snapshot, the
per-record upsert and the batched table upsert, together with theorems
checking the specification's claims against the embedded code.
-/

namespace GSheets

/-- Python exceptions the embedded code can raise.  The design-level error
taxonomy of the spec maps onto them as follows: `MalformedRangeError` is the
`AttributeError` raised by calling `.groups()` on the `None` returned by a
failed `re.search`; `EmptySheetError` is the `IndexError` from reading row 0
of an empty fetch; `UnknownFieldError` is the `ValueError` from `list.index`;
a missing dict key raises `KeyError`. -/
inductive PyErr where
  | attributeError
  | keyError
  | valueError
  | indexError
  deriving DecidableEq, Repr

/-- The character class `[A-Z]` of the range regexes. -/
def isUpperAZ (c : Char) : Bool := 'A' ≤ c && c ≤ 'Z'

/-- The character class `\d` of the range regexes (the inputs at hand are
ASCII, where `\d` is exactly `0`-`9`). -/
def isDigit09 (c : Char) : Bool := '0' ≤ c && c ≤ '9'

/-- Python `int` on a (non-empty) string of decimal digits. -/
def digitsToNat (l : List Char) : Nat :=
  l.foldl (fun a c => a * 10 + (c.toNat - '0'.toNat)) 0

/-- One attempt of the pattern `[A-Z]+(\d+):[A-Z]+(\d*)` anchored at the head
of `s`, returning the two captured digit groups.  Consecutive pieces of the
pattern match pairwise disjoint character classes, so greedy matching with
backtracking coincides with maximal munch, which is what we implement:
shortening a greedy run can only put a character of the same class in front
of a piece that rejects it. -/
def matchRowsAt (s : List Char) : Option (List Char × List Char) :=
  let letters1 := s.takeWhile isUpperAZ
  let rest1 := s.dropWhile isUpperAZ
  if letters1.isEmpty then none else
  let d1 := rest1.takeWhile isDigit09
  let rest2 := rest1.dropWhile isDigit09
  if d1.isEmpty then none else
  match rest2 with
  | ':' :: rest3 =>
    let letters2 := rest3.takeWhile isUpperAZ
    let rest4 := rest3.dropWhile isUpperAZ
    if letters2.isEmpty then none
    else some (d1, rest4.takeWhile isDigit09)
  | _ => none

/-- `re.search` for the row pattern: try the anchored match at every start
position, leftmost first. -/
def searchRows : List Char → Option (List Char × List Char)
  | [] => none
  | c :: cs =>
    match matchRowsAt (c :: cs) with
    | some r => some r
    | none => searchRows cs

/-- One attempt of the pattern `([A-Z]+)\d*:([A-Z]+)\d*` anchored at the head
of `s`, returning the two captured letter groups.  As for `matchRowsAt`,
maximal munch is faithful to the greedy regex here. -/
def matchColsAt (s : List Char) : Option (List Char × List Char) :=
  let letters1 := s.takeWhile isUpperAZ
  let rest1 := s.dropWhile isUpperAZ
  if letters1.isEmpty then none else
  let rest2 := rest1.dropWhile isDigit09
  match rest2 with
  | ':' :: rest3 =>
    let letters2 := rest3.takeWhile isUpperAZ
    if letters2.isEmpty then none
    else some (letters1, letters2)
  | _ => none

/-- `re.search` for the column pattern. -/
def searchCols : List Char → Option (List Char × List Char)
  | [] => none
  | c :: cs =>
    match matchColsAt (c :: cs) with
    | some r => some r
    | none => searchCols cs

/-- `BaseGoogleSheetMixin.sheet_range_rows` (mixins.py lines 87-101), as a
function of the combined range string and `max_rows`.  The code's
`except ValueError` branch is unreachable: `.groups()` of a successful
2-group match always unpacks, and a failed search raises `AttributeError`
before any unpacking.  The `end == ''` check is live because the second
group is `\d*`. -/
def sheet_range_rows (rangeString : String) (max_rows : Nat) :
    Except PyErr (Nat × Nat) :=
  match searchRows rangeString.toList with
  | none => .error .attributeError
  | some (s, e) =>
    .ok (digitsToNat s, if e.isEmpty then max_rows else digitsToNat e)

/-- `BaseGoogleSheetMixin.sheet_range_cols` (mixins.py lines 103-114).  The
`except ValueError` branch that would default the trailing column to
`max_col` is unreachable for the same reason as in `sheet_range_rows`; the
parameter is kept to mirror the source attribute. -/
def sheet_range_cols (rangeString : String) (max_col : String) :
    Except PyErr (String × String) :=
  match searchCols rangeString.toList with
  | none => .error .attributeError
  | some (a, b) => .ok (String.mk a, String.mk b)

/-- `BaseGoogleSheetMixin.get_sheet_range` (mixins.py lines 116-118):
`'!'.join([sheet_name, data_range])`. -/
def get_sheet_range (sheet_name : String) (data_range : String) : String :=
  sheet_name ++ "!" ++ data_range

/-- The class-attribute configuration of `BaseGoogleSheetMixin` (mixins.py
lines 9-26), plus `remote`: the `values` array that the spreadsheet API's
`get` call returns for the configured range (`api_res.get('values', [])`).
Field defaults are the source's defaults. -/
structure GSheetCtx where
  sheet_name : String := "Sheet1"
  data_range : String := "A1:Z"
  model_id_field : String := "id"
  sheet_id_field : String := "Django GUID"
  batch_size : Nat := 500
  max_rows : Nat := 30000
  max_col : String := "Z"
  remote : List (List String) := []
  deriving DecidableEq, Repr

/-- The mutable per-instance state set up in `__init__` (mixins.py lines
28-33): the lazily populated snapshot caches.  `fetchCount` instruments the
number of remote `get` calls actually issued, so that single-fetch claims
can be stated. -/
structure SheetState where
  _sheet_data : Option (List (List String))
  _sheet_headers : Option (List String)
  fetchCount : Nat
  deriving DecidableEq, Repr

/-- A freshly constructed mixin instance: both caches empty, no fetches. -/
def freshState : SheetState := ⟨none, none, 0⟩

/-- The `sheet_data` property (mixins.py lines 62-73).  On a cache miss it
issues the remote `get` (counted), stores the fetched values, peels the
first row off as the headers and keeps the remainder as the data cache.
Python assigns `self._sheet_data` before indexing row 0, so an empty fetch
leaves `_sheet_data = []` behind and raises `IndexError`.  Exceptions
propagate but the mutated instance state persists, hence the result is
always paired with a state. -/
def sheet_data (ctx : GSheetCtx) (st : SheetState) :
    Except PyErr (List (List String)) × SheetState :=
  match st._sheet_data with
  | some d => (.ok d, st)
  | none =>
    match ctx.remote with
    | [] =>
      (.error .indexError,
        { st with _sheet_data := some [], fetchCount := st.fetchCount + 1 })
    | h :: rest =>
      (.ok rest,
        { st with
            _sheet_data := some rest
            _sheet_headers := some h
            fetchCount := st.fetchCount + 1 })

/-- The `sheet_headers` property (mixins.py lines 75-81).  Python's
`if not self._sheet_headers` treats both `None` and the empty list as
falsy; in that case `self.sheet_data` is evaluated for its side effect,
and whatever `self._sheet_headers` then holds (possibly still `None`) is
returned. -/
def sheet_headers (ctx : GSheetCtx) (st : SheetState) :
    Except PyErr (Option (List String)) × SheetState :=
  let falsy :=
    match st._sheet_headers with
    | none => true
    | some [] => true
    | some (_ :: _) => false
  if falsy then
    match sheet_data ctx st with
    | (.error e, st') => (.error e, st')
    | (.ok _, st') => (.ok st'._sheet_headers, st')
  else (.ok st._sheet_headers, st)

/-- Python `list.index`: the first position holding the given value. -/
def listIndex : List String → String → Option Nat
  | [], _ => none
  | y :: ys, x => if y = x then some 0 else (listIndex ys x).map (· + 1)

/-- `BaseGoogleSheetMixin.column_index` (mixins.py lines 120-129):
`self.sheet_headers.index(field_name)`.  If the headers are `None` (only
possible after a failed empty fetch) the attribute access on `None` raises
`AttributeError`; a missing field raises `ValueError`. -/
def column_index (ctx : GSheetCtx) (field_name : String) (st : SheetState) :
    Except PyErr Nat × SheetState :=
  match sheet_headers ctx st with
  | (.error e, st') => (.error e, st')
  | (.ok none, st') => (.error .attributeError, st')
  | (.ok (some hs), st') =>
    match listIndex hs field_name with
    | some i => (.ok i, st')
    | none => (.error .valueError, st')

/-- The scan loop of `existing_row` (mixins.py lines 143-145): first data-row
offset whose cell in column `ix` equals `mid`; `r[ix]` on a too-short row
raises `IndexError`. -/
def findRowScanAux (k : Nat) (rows : List (List String)) (ix : Nat)
    (mid : String) : Except PyErr (Option Nat) :=
  match rows with
  | [] => .ok none
  | r :: rs =>
    match r.get? ix with
    | none => .error .indexError
    | some v => if v = mid then .ok (some k) else findRowScanAux (k + 1) rs ix mid

/-- `BaseGoogleSheetMixin.existing_row` (mixins.py lines 131-147).  `data`
models the keyword-argument dict as an association list (unique keys,
first-match lookup); `data[self.model_id_field]` raises `KeyError` before
anything else when the key is absent. -/
def existing_row (ctx : GSheetCtx) (data : List (String × String))
    (st : SheetState) : Except PyErr (Option Nat) × SheetState :=
  match List.lookup ctx.model_id_field data with
  | none => (.error .keyError, st)
  | some model_id =>
    match column_index ctx ctx.sheet_id_field st with
    | (.error e, st') => (.error e, st')
    | (.ok sheet_id_ix, st') =>
      match sheet_data ctx st' with
      | (.error e, st'') => (.error e, st'')
      | (.ok rows, st'') => (findRowScanAux 0 rows sheet_id_ix model_id, st'')

/-- The field-index collection loop of `upsert_data` (mixins.py lines
203-208), over `data.keys()` in dict (insertion) order.  `column_index` is
called with the field name, redirecting the model identifier field to the
hidden sheet-ID column; a `ValueError` (no matching header) is caught and
the field skipped, any other exception propagates.  State changes made
before an exception (the lazy fetch) persist. -/
def collectFieldIndexes (ctx : GSheetCtx) :
    List String → SheetState →
      Except PyErr (List (String × Nat)) × SheetState
  | [], st => (.ok [], st)
  | field :: rest, st =>
    let name := if field = ctx.model_id_field then ctx.sheet_id_field else field
    match column_index ctx name st with
    | (.ok ix, st') =>
      match collectFieldIndexes ctx rest st' with
      | (.ok l, st'') => (.ok ((field, ix) :: l), st'')
      | (.error e, st'') => (.error e, st'')
    | (.error .valueError, st') => collectFieldIndexes ctx rest st'
    | (.error e, st') => (.error e, st')

/-- Stable insertion of a pair by its numeric key: strictly smaller keys go
in front, so a newly inserted pair lands after all pairs with the same key
already present. -/
def insertByKey (p : String × Nat) : List (String × Nat) → List (String × Nat)
  | [] => [p]
  | q :: qs => if p.2 < q.2 then p :: q :: qs else q :: insertByKey p qs

/-- Python `sorted(field_indexes, key=lambda x: x[1])` (mixins.py line 211):
a stable sort by the column index.  Stable sorts by a total key agree, so
left-to-right insertion reproduces Python's sort. -/
def sortByIx (l : List (String × Nat)) : List (String × Nat) :=
  l.foldl (fun acc p => insertByKey p acc) []

/-- Pure description of the collected `(field, column index)` pairs on a
session whose headers cache already holds `hs`: each field resolves via
`listIndex` after the identifier redirect, unresolvable fields are
dropped. -/
def resolvedIndexes (ctx : GSheetCtx) (hs : List String)
    (fields : List String) : List (String × Nat) :=
  fields.filterMap (fun f =>
    (listIndex hs (if f = ctx.model_id_field then ctx.sheet_id_field else f)).map
      (fun i => (f, i)))

/-- Pure description of the row `upsert_data` assembles (mixins.py lines
211-216): the pushed values in ascending column-index order.  `data` models
a dict, so the lookup of a collected field always succeeds; `getD ""` is
only a total-function artifact. -/
def pureRow (ctx : GSheetCtx) (hs : List String)
    (data : List (String × String)) : List String :=
  (sortByIx (resolvedIndexes ctx hs (data.map Prod.fst))).map
    (fun fi => (List.lookup fi.1 data).getD "")

/-- `SheetPushableMixin.upsert_data` (mixins.py lines 198-223): collect the
column index of every pushed field (skipping ones without a header), build
the row in column order, then overwrite the first existing row with the
same hidden ID or append a new row.  The row mutation goes through the
`sheet_data` property exactly as in the source. -/
def upsert_data (ctx : GSheetCtx) (data : List (String × String))
    (st : SheetState) : Except PyErr Unit × SheetState :=
  match collectFieldIndexes ctx (data.map Prod.fst) st with
  | (.error e, st') => (.error e, st')
  | (.ok field_indexes, st') =>
    let sorted_field_indexes := sortByIx field_indexes
    let row_data := sorted_field_indexes.map
      (fun fi => (List.lookup fi.1 data).getD "")
    match existing_row ctx data st' with
    | (.error e, st'') => (.error e, st'')
    | (.ok (some i), st'') =>
      match sheet_data ctx st'' with
      | (.error e, st3) => (.error e, st3)
      | (.ok d, st3) =>
        (.ok (), { st3 with _sheet_data := some (d.set i row_data) })
    | (.ok none, st'') =>
      match sheet_data ctx st'' with
      | (.error e, st3) => (.error e, st3)
      | (.ok d, st3) =>
        (.ok (), { st3 with _sheet_data := some (d ++ [row_data]) })

/-- One batched write issued through `writeout` (mixins.py lines 225-243),
recorded as the pair of the A1 range string and the payload.  The remote
write itself is external; these claims concern which writes are issued, so
the model records them in order and assumes transport success. -/
structure Writeout where
  range : String
  values : List (List String)
  deriving DecidableEq, Repr

/-- Python list-index normalisation for slices: negative indices count from
the end, everything is clamped into `[0, len]`. -/
def pyIndexNorm (len : Nat) (i : Int) : Nat :=
  if i < 0 then ((len : Int) + i).toNat else min i.toNat len

/-- Python `l[a:b]`. -/
def pySlice {α : Type} (l : List α) (a b : Int) : List α :=
  (l.take (pyIndexNorm l.length b)).drop (pyIndexNorm l.length a)

/-- Python `l[a:]`. -/
def pySliceFrom {α : Type} (l : List α) (a : Int) : List α :=
  l.drop (pyIndexNorm l.length a)

/-- The record loop of `upsert_table` (mixins.py lines 159-177).  At the top
of iteration `i`, if `i` is a positive multiple of the batch size, the cache
slice `[(rows_start-1)+i, (rows_start-1)+i+batch_size)` is written out to
the sheet rows starting at `(rows_start+1)+i` and `last_writeout` is set to
`i`; then record `i`'s push data is upserted.  Each record of `queryset` is
the `push_data` dict `{f: getattr(obj, f) for f in get_push_fields()}`
already materialised.  Returns the final `last_writeout` and the writeouts
issued, in order. -/
def upsertLoop (ctx : GSheetCtx) (cols_start cols_end : String)
    (rows_start : Nat) :
    Nat → Nat → List (List (String × String)) → List Writeout → SheetState →
      Except PyErr (Nat × List Writeout) × SheetState
  | _, last_writeout, [], acc, st => (.ok (last_writeout, acc), st)
  | i, last_writeout, obj :: rest, acc, st =>
    if 0 < i ∧ i % ctx.batch_size = 0 then
      match sheet_data ctx st with
      | (.error e, st') => (.error e, st')
      | (.ok d, st') =>
        let startRow := rows_start + 1 + i
        let endRow := startRow + ctx.batch_size
        let wr := get_sheet_range ctx.sheet_name
          (cols_start ++ toString startRow ++ ":" ++ cols_end ++ toString endRow)
        let dataStart : Int := (rows_start : Int) - 1 + (i : Int)
        let wdata := pySlice d dataStart (dataStart + (ctx.batch_size : Int))
        match upsert_data ctx obj st' with
        | (.error e, st'') => (.error e, st'')
        | (.ok _, st'') =>
          upsertLoop ctx cols_start cols_end rows_start (i + 1) i rest
            (acc ++ [⟨wr, wdata⟩]) st''
    else
      match upsert_data ctx obj st with
      | (.error e, st') => (.error e, st')
      | (.ok _, st') =>
        upsertLoop ctx cols_start cols_end rows_start (i + 1) last_writeout
          rest acc st'

/-- `SheetPushableMixin.upsert_table` (mixins.py lines 152-187): resolve the
column and row bounds of the configured range once, run the record loop with
its periodic flushes, then, if `last_writeout < len(queryset)`, issue the
final flush of `sheet_data[last_writeout:]` to the range starting at row
`max(2, last_writeout)` and ending at the configured end row. -/
def upsert_table (ctx : GSheetCtx)
    (queryset : List (List (String × String))) (st : SheetState) :
    Except PyErr (List Writeout) × SheetState :=
  let sr := get_sheet_range ctx.sheet_name ctx.data_range
  match sheet_range_cols sr ctx.max_col with
  | .error e => (.error e, st)
  | .ok (cols_start, cols_end) =>
    match sheet_range_rows sr ctx.max_rows with
    | .error e => (.error e, st)
    | .ok (rows_start, rows_end) =>
      match upsertLoop ctx cols_start cols_end rows_start 0 0 queryset [] st with
      | (.error e, st') => (.error e, st')
      | (.ok (last_writeout, acc), st') =>
        if last_writeout < queryset.length then
          match sheet_data ctx st' with
          | (.error e, st'') => (.error e, st'')
          | (.ok d, st'') =>
            (.ok (acc ++ [⟨get_sheet_range ctx.sheet_name
                (cols_start ++ toString (max 2 last_writeout) ++ ":" ++
                  cols_end ++ toString rows_end),
              pySliceFrom d (last_writeout : Int)⟩]), st'')
        else (.ok acc, st')

/-! ## Lemmas about the regex model -/

theorem digit_not_upper {c : Char} (h : isDigit09 c = true) :
    isUpperAZ c = false := by
  simp only [isDigit09, Bool.and_eq_true, decide_eq_true_eq] at h
  simp only [isUpperAZ, Bool.and_eq_false_iff, decide_eq_false_iff_not]
  left
  intro hA
  exact absurd (le_trans hA h.2) (by decide)

theorem takeWhile_append_all (p : Char → Bool) {xs : List Char}
    (ys : List Char) (h : ∀ x ∈ xs, p x = true) :
    (xs ++ ys).takeWhile p = xs ++ ys.takeWhile p := by
  induction xs with
  | nil => simp
  | cons a l ih =>
    simp [List.takeWhile_cons, h a (by simp),
      ih (fun x hx => h x (by simp [hx]))]

theorem dropWhile_append_all (p : Char → Bool) {xs : List Char}
    (ys : List Char) (h : ∀ x ∈ xs, p x = true) :
    (xs ++ ys).dropWhile p = ys.dropWhile p := by
  induction xs with
  | nil => simp
  | cons a l ih =>
    simp [List.dropWhile_cons, h a (by simp),
      ih (fun x hx => h x (by simp [hx]))]

theorem takeWhile_stop (p : Char → Bool) (ys : List Char)
    (h : ∀ a l, ys = a :: l → p a = false) : ys.takeWhile p = [] := by
  cases ys with
  | nil => rfl
  | cons a l => simp [List.takeWhile_cons, h a l rfl]

theorem dropWhile_stop (p : Char → Bool) (ys : List Char)
    (h : ∀ a l, ys = a :: l → p a = false) : ys.dropWhile p = ys := by
  cases ys with
  | nil => rfl
  | cons a l => simp [List.dropWhile_cons, h a l rfl]

/-- Maximal munch over a decomposition `xs ++ ys` where all of `xs` matches
and the head of `ys` (if any) does not. -/
theorem munch_exact (p : Char → Bool) (xs ys : List Char)
    (hall : ∀ x ∈ xs, p x = true)
    (hstop : ∀ a l, ys = a :: l → p a = false) :
    (xs ++ ys).takeWhile p = xs ∧ (xs ++ ys).dropWhile p = ys := by
  constructor
  · rw [takeWhile_append_all p ys hall, takeWhile_stop p ys hstop, List.append_nil]
  · rw [dropWhile_append_all p ys hall, dropWhile_stop p ys hstop]

theorem takeWhile_all (p : Char → Bool) (l : List Char)
    (h : ∀ x ∈ l, p x = true) : l.takeWhile p = l := by
  have := takeWhile_append_all p ([] : List Char) h
  simpa using this

theorem matchRowsAt_canonical (colsA rowA colsB rowB : List Char)
    (hA : colsA ≠ []) (hAu : ∀ c ∈ colsA, isUpperAZ c = true)
    (hr : rowA ≠ []) (hrd : ∀ c ∈ rowA, isDigit09 c = true)
    (hB : colsB ≠ []) (hBu : ∀ c ∈ colsB, isUpperAZ c = true)
    (hrBd : ∀ c ∈ rowB, isDigit09 c = true) :
    matchRowsAt (colsA ++ (rowA ++ (':' :: (colsB ++ rowB))))
      = some (rowA, rowB) := by
  have stop1 : ∀ a l, rowA ++ (':' :: (colsB ++ rowB)) = a :: l →
      isUpperAZ a = false := by
    intro a l hl
    cases rowA with
    | nil =>
      rw [List.nil_append] at hl
      injection hl with h1 _
      rw [← h1]; decide
    | cons r rs =>
      rw [List.cons_append] at hl
      injection hl with h1 _
      rw [← h1]; exact digit_not_upper (hrd r (by simp))
  have m1 := munch_exact isUpperAZ colsA (rowA ++ (':' :: (colsB ++ rowB)))
    hAu stop1
  have stop2 : ∀ a l, ':' :: (colsB ++ rowB) = a :: l →
      isDigit09 a = false := by
    intro a l hl
    injection hl with h1 _
    rw [← h1]; decide
  have m2 := munch_exact isDigit09 rowA (':' :: (colsB ++ rowB)) hrd stop2
  have stop3 : ∀ a l, rowB = a :: l → isUpperAZ a = false := by
    intro a l hl
    exact digit_not_upper (hrBd a (by rw [hl]; exact List.mem_cons_self a l))
  have m3 := munch_exact isUpperAZ colsB rowB hBu stop3
  have m4 : rowB.takeWhile isDigit09 = rowB := takeWhile_all isDigit09 rowB hrBd
  obtain ⟨a, as, rfl⟩ : ∃ a as, colsA = a :: as := by
    cases colsA with
    | nil => exact absurd rfl hA
    | cons a as => exact ⟨a, as, rfl⟩
  obtain ⟨r, rs, rfl⟩ : ∃ r rs, rowA = r :: rs := by
    cases rowA with
    | nil => exact absurd rfl hr
    | cons r rs => exact ⟨r, rs, rfl⟩
  obtain ⟨b, bs, rfl⟩ : ∃ b bs, colsB = b :: bs := by
    cases colsB with
    | nil => exact absurd rfl hB
    | cons b bs => exact ⟨b, bs, rfl⟩
  simp only [matchRowsAt, m1.1, m1.2, m2.1, m2.2, m3.1, m3.2, m4,
    List.isEmpty_cons, Bool.false_eq_true, if_false]

theorem searchRows_head_match {l : List Char} {r : List Char × List Char}
    (h1 : l ≠ []) (h2 : matchRowsAt l = some r) : searchRows l = some r := by
  cases l with
  | nil => exact absurd rfl h1
  | cons c cs => simp [searchRows, h2]

theorem mem_of_mem_dropWhile {p : Char → Bool} {l : List Char} {x : Char}
    (h : x ∈ l.dropWhile p) : x ∈ l := by
  induction l with
  | nil => simpa using h
  | cons a t ih =>
    rw [List.dropWhile_cons] at h
    by_cases hp : p a = true
    · simp only [hp, if_true] at h
      exact List.mem_cons_of_mem a (ih h)
    · simp only [hp, if_false] at h
      exact h

theorem matchRowsAt_none_of_no_digit (s : List Char)
    (h : ∀ c ∈ s, isDigit09 c = false) : matchRowsAt s = none := by
  have hd1 : (s.dropWhile isUpperAZ).takeWhile isDigit09 = [] := by
    apply takeWhile_stop
    intro a l hl
    exact h a (mem_of_mem_dropWhile (hl ▸ List.mem_cons_self a l))
  cases hletters : s.takeWhile isUpperAZ with
  | nil => simp [matchRowsAt, hletters]
  | cons c cs => simp [matchRowsAt, hletters, hd1]

theorem searchRows_none_of_no_digit (s : List Char)
    (h : ∀ c ∈ s, isDigit09 c = false) : searchRows s = none := by
  induction s with
  | nil => rfl
  | cons c cs ih =>
    simp [searchRows, matchRowsAt_none_of_no_digit _ h,
      ih (fun x hx => h x (List.mem_cons_of_mem c hx))]

theorem matchColsAt_canonical (colsA rowA colsB rowB : List Char)
    (hA : colsA ≠ []) (hAu : ∀ c ∈ colsA, isUpperAZ c = true)
    (hrd : ∀ c ∈ rowA, isDigit09 c = true)
    (hB : colsB ≠ []) (hBu : ∀ c ∈ colsB, isUpperAZ c = true)
    (hrBd : ∀ c ∈ rowB, isDigit09 c = true) :
    matchColsAt (colsA ++ (rowA ++ (':' :: (colsB ++ rowB))))
      = some (colsA, colsB) := by
  have stop1 : ∀ a l, rowA ++ (':' :: (colsB ++ rowB)) = a :: l →
      isUpperAZ a = false := by
    intro a l hl
    cases rowA with
    | nil =>
      rw [List.nil_append] at hl
      injection hl with h1 _
      rw [← h1]; decide
    | cons r rs =>
      rw [List.cons_append] at hl
      injection hl with h1 _
      rw [← h1]; exact digit_not_upper (hrd r (by simp))
  have m1 := munch_exact isUpperAZ colsA (rowA ++ (':' :: (colsB ++ rowB)))
    hAu stop1
  have stop2 : ∀ a l, ':' :: (colsB ++ rowB) = a :: l →
      isDigit09 a = false := by
    intro a l hl
    injection hl with h1 _
    rw [← h1]; decide
  have m2 := munch_exact isDigit09 rowA (':' :: (colsB ++ rowB)) hrd stop2
  have stop3 : ∀ a l, rowB = a :: l → isUpperAZ a = false := by
    intro a l hl
    exact digit_not_upper (hrBd a (by rw [hl]; exact List.mem_cons_self a l))
  have m3 := munch_exact isUpperAZ colsB rowB hBu stop3
  obtain ⟨a, as, rfl⟩ : ∃ a as, colsA = a :: as := by
    cases colsA with
    | nil => exact absurd rfl hA
    | cons a as => exact ⟨a, as, rfl⟩
  obtain ⟨b, bs, rfl⟩ : ∃ b bs, colsB = b :: bs := by
    cases colsB with
    | nil => exact absurd rfl hB
    | cons b bs => exact ⟨b, bs, rfl⟩
  simp only [matchColsAt, m1.1, m1.2, m2.2, m3.1,
    List.isEmpty_cons, Bool.false_eq_true, if_false]

theorem searchCols_head_match {l : List Char} {r : List Char × List Char}
    (h1 : l ≠ []) (h2 : matchColsAt l = some r) : searchCols l = some r := by
  cases l with
  | nil => exact absurd rfl h1
  | cons c cs => simp [searchCols, h2]

theorem matchColsAt_none_of_no_upper (s : List Char)
    (h : ∀ c ∈ s, isUpperAZ c = false) : matchColsAt s = none := by
  have hletters : s.takeWhile isUpperAZ = [] := by
    apply takeWhile_stop
    intro a l hl
    exact h a (hl ▸ List.mem_cons_self a l)
  simp [matchColsAt, hletters]

theorem searchCols_none_of_no_upper (s : List Char)
    (h : ∀ c ∈ s, isUpperAZ c = false) : searchCols s = none := by
  induction s with
  | nil => rfl
  | cons c cs ih =>
    simp [searchCols, matchColsAt_none_of_no_upper _ h,
      ih (fun x hx => h x (List.mem_cons_of_mem c hx))]

/-! ## Claims about range parsing: C4, C5, C6 -/

/-- C4: for every range string of the form cols·row:cols·row (such as
"A2:C10"), `sheet_range_rows` returns the pair of the two row numbers; when
the trailing row number is absent or empty (as in "A2:C") the end bound
defaults to `max_rows`; and on a string in which no row number can be found
at all the parse fails — the spec's `MalformedRangeError`, surfacing in the
code as the `AttributeError` of calling `.groups()` on a failed search. -/
theorem C4_sheet_range_rows (colsA rowA colsB rowB : List Char)
    (max_rows : Nat)
    (hA : colsA ≠ []) (hAu : ∀ c ∈ colsA, isUpperAZ c = true)
    (hr : rowA ≠ []) (hrd : ∀ c ∈ rowA, isDigit09 c = true)
    (hB : colsB ≠ []) (hBu : ∀ c ∈ colsB, isUpperAZ c = true)
    (hrBd : ∀ c ∈ rowB, isDigit09 c = true) :
    sheet_range_rows (String.mk (colsA ++ (rowA ++ (':' :: (colsB ++ rowB)))))
        max_rows
      = Except.ok (digitsToNat rowA,
          if rowB.isEmpty then max_rows else digitsToNat rowB) ∧
    ∀ s : String, (∀ c ∈ s.toList, isDigit09 c = false) →
      sheet_range_rows s max_rows = Except.error PyErr.attributeError := by
  constructor
  · have hmatch := matchRowsAt_canonical colsA rowA colsB rowB hA hAu hr hrd
      hB hBu hrBd
    have hne : colsA ++ (rowA ++ (':' :: (colsB ++ rowB))) ≠ [] := by
      cases colsA with
      | nil => exact absurd rfl hA
      | cons a as => simp
    have hsearch := searchRows_head_match hne hmatch
    unfold sheet_range_rows
    rw [show (String.mk (colsA ++ (rowA ++ (':' :: (colsB ++ rowB))))).toList
        = colsA ++ (rowA ++ (':' :: (colsB ++ rowB))) from rfl, hsearch]
  · intro s hs
    unfold sheet_range_rows
    rw [searchRows_none_of_no_digit s.toList hs]

/-- Witness for C4 at the spec's own examples plus a digit-free string. -/
theorem C4_sheet_range_rows_witness :
    sheet_range_rows "A2:C10" 30000 = Except.ok (2, 10) ∧
    sheet_range_rows "A2:C" 30000 = Except.ok (2, 30000) ∧
    sheet_range_rows "AB:CD" 30000 = Except.error PyErr.attributeError := by
  have h1 := C4_sheet_range_rows ['A'] ['2'] ['C'] ['1', '0'] 30000
    (by decide) (by decide) (by decide) (by decide) (by decide) (by decide)
    (by decide)
  have h2 := C4_sheet_range_rows ['A'] ['2'] ['C'] [] 30000
    (by decide) (by decide) (by decide) (by decide) (by decide) (by decide)
    (by decide)
  exact ⟨h1.1, h2.1, h1.2 "AB:CD" (by decide)⟩

/-- C5 counterexample: the claim says the trailing column "defaults to
maxCol whenever it cannot be parsed", which at range "Sheet1!A1:" with
`max_col = "Z"` would give `("A", "Z")`; the code instead fails, because a
missing trailing column makes the whole regex search fail (the
`except ValueError` default branch is unreachable). -/
theorem C5_counterexample :
    sheet_range_cols "Sheet1!A1:" "Z" = Except.error PyErr.attributeError ∧
    sheet_range_cols "Sheet1!A1:" "Z" ≠ Except.ok ("A", "Z") := by
  have h : sheet_range_cols "Sheet1!A1:" "Z"
      = Except.error PyErr.attributeError := rfl
  refine ⟨h, ?_⟩
  rw [h]
  simp

/-- C5 amended: `sheet_range_cols` returns the leading and trailing column
letter groups of a well-formed range (e.g. ("B", "D") for "B1:D1"); but the
trailing column never defaults to `max_col` — when it cannot be parsed the
whole search fails (e.g. on "Sheet1!A1:"), exactly as in the total-failure
case, surfacing the spec's `MalformedRangeError` as `AttributeError`. -/
theorem C5_sheet_range_cols_amended (colsA rowA colsB rowB : List Char)
    (max_col : String)
    (hA : colsA ≠ []) (hAu : ∀ c ∈ colsA, isUpperAZ c = true)
    (hrd : ∀ c ∈ rowA, isDigit09 c = true)
    (hB : colsB ≠ []) (hBu : ∀ c ∈ colsB, isUpperAZ c = true)
    (hrBd : ∀ c ∈ rowB, isDigit09 c = true) :
    sheet_range_cols (String.mk (colsA ++ (rowA ++ (':' :: (colsB ++ rowB)))))
        max_col
      = Except.ok (String.mk colsA, String.mk colsB) ∧
    sheet_range_cols "Sheet1!A1:" max_col
      = Except.error PyErr.attributeError ∧
    ∀ s : String, (∀ c ∈ s.toList, isUpperAZ c = false) →
      sheet_range_cols s max_col = Except.error PyErr.attributeError := by
  refine ⟨?_, rfl, ?_⟩
  · have hmatch := matchColsAt_canonical colsA rowA colsB rowB hA hAu hrd
      hB hBu hrBd
    have hne : colsA ++ (rowA ++ (':' :: (colsB ++ rowB))) ≠ [] := by
      cases colsA with
      | nil => exact absurd rfl hA
      | cons a as => simp
    have hsearch := searchCols_head_match hne hmatch
    unfold sheet_range_cols
    rw [show (String.mk (colsA ++ (rowA ++ (':' :: (colsB ++ rowB))))).toList
        = colsA ++ (rowA ++ (':' :: (colsB ++ rowB))) from rfl, hsearch]
  · intro s hs
    unfold sheet_range_cols
    rw [searchCols_none_of_no_upper s.toList hs]

/-- Witness for the amended C5 at "B1:D1" and an upper-case-free string. -/
theorem C5_sheet_range_cols_amended_witness :
    sheet_range_cols "B1:D1" "Z" = Except.ok ("B", "D") ∧
    sheet_range_cols "Sheet1!A1:" "Z" = Except.error PyErr.attributeError ∧
    sheet_range_cols "12:34" "Z" = Except.error PyErr.attributeError := by
  have h := C5_sheet_range_cols_amended ['B'] ['1'] ['D'] ['1'] "Z"
    (by decide) (by decide) (by decide) (by decide) (by decide) (by decide)
  exact ⟨h.1, h.2.1, h.2.2 "12:34" (by decide)⟩

/-- C6: `get_sheet_range "Sheet1" "A1:Z"` is exactly "Sheet1!A1:Z", and
parsing that combined string recovers the original bounds: rows
`(1, max_rows)` (the trailing row is empty, so the end defaults) and
columns `("A", "Z")`. -/
theorem C6_round_trip (max_rows : Nat) (max_col : String) :
    get_sheet_range "Sheet1" "A1:Z" = "Sheet1!A1:Z" ∧
    sheet_range_rows (get_sheet_range "Sheet1" "A1:Z") max_rows
      = Except.ok (1, max_rows) ∧
    sheet_range_cols (get_sheet_range "Sheet1" "A1:Z") max_col
      = Except.ok ("A", "Z") :=
  ⟨rfl, rfl, rfl⟩

/-- Witness for C6 at the default configuration bounds. -/
theorem C6_round_trip_witness :
    get_sheet_range "Sheet1" "A1:Z" = "Sheet1!A1:Z" ∧
    sheet_range_rows (get_sheet_range "Sheet1" "A1:Z") 30000
      = Except.ok (1, 30000) ∧
    sheet_range_cols (get_sheet_range "Sheet1" "A1:Z") "Z"
      = Except.ok ("A", "Z") :=
  C6_round_trip 30000 "Z"

/-! ## Lemmas about the snapshot state -/

theorem sheet_data_cached (ctx : GSheetCtx) (st : SheetState)
    (d : List (List String)) (h : st._sheet_data = some d) :
    sheet_data ctx st = (Except.ok d, st) := by
  unfold sheet_data
  rw [h]

theorem sheet_headers_cached (ctx : GSheetCtx) (st : SheetState)
    (d : List (List String)) (h : st._sheet_data = some d) :
    sheet_headers ctx st = (Except.ok st._sheet_headers, st) := by
  unfold sheet_headers
  cases hh : st._sheet_headers with
  | none => simp [sheet_data_cached ctx st d h, hh]
  | some hs =>
    cases hs with
    | nil => simp [sheet_data_cached ctx st d h, hh]
    | cons a t => simp [hh]

theorem column_index_cached_found (ctx : GSheetCtx) (st : SheetState)
    (d : List (List String)) (hs : List String) (name : String) (i : Nat)
    (hd : st._sheet_data = some d) (hh : st._sheet_headers = some hs)
    (hi : listIndex hs name = some i) :
    column_index ctx name st = (Except.ok i, st) := by
  simp [column_index, sheet_headers_cached ctx st d hd, hh, hi]

theorem column_index_cached_miss (ctx : GSheetCtx) (st : SheetState)
    (d : List (List String)) (hs : List String) (name : String)
    (hd : st._sheet_data = some d) (hh : st._sheet_headers = some hs)
    (hi : listIndex hs name = none) :
    column_index ctx name st = (Except.error PyErr.valueError, st) := by
  simp [column_index, sheet_headers_cached ctx st d hd, hh, hi]

theorem collectFieldIndexes_cached (ctx : GSheetCtx) (st : SheetState)
    (d : List (List String)) (hs : List String) (fields : List String)
    (hd : st._sheet_data = some d) (hh : st._sheet_headers = some hs) :
    collectFieldIndexes ctx fields st
      = (Except.ok (resolvedIndexes ctx hs fields), st) := by
  induction fields with
  | nil => simp [collectFieldIndexes, resolvedIndexes]
  | cons f rest ih =>
    cases hi : listIndex hs
        (if f = ctx.model_id_field then ctx.sheet_id_field else f) with
    | some i =>
      simp [collectFieldIndexes,
        column_index_cached_found ctx st d hs _ i hd hh hi, ih,
        resolvedIndexes, List.filterMap_cons, hi]
    | none =>
      simp [collectFieldIndexes,
        column_index_cached_miss ctx st d hs _ hd hh hi, ih,
        resolvedIndexes, List.filterMap_cons, hi]

theorem existing_row_cached (ctx : GSheetCtx) (st : SheetState)
    (d : List (List String)) (hs : List String)
    (data : List (String × String)) (mid : String) (sid : Nat)
    (hd : st._sheet_data = some d) (hh : st._sheet_headers = some hs)
    (hmid : List.lookup ctx.model_id_field data = some mid)
    (hsid : listIndex hs ctx.sheet_id_field = some sid) :
    existing_row ctx data st = (findRowScanAux 0 d sid mid, st) := by
  simp [existing_row, hmid,
    column_index_cached_found ctx st d hs _ sid hd hh hsid,
    sheet_data_cached ctx st d hd]

/-- Behaviour of `upsert_data` on a session whose caches are populated: the
state is threaded unchanged through the lookups, the assembled row is
`pureRow`, and the data cache is updated in place or extended according to
the hidden-ID scan. -/
theorem upsert_data_cached (ctx : GSheetCtx) (st : SheetState)
    (d : List (List String)) (hs : List String)
    (data : List (String × String)) (mid : String) (sid : Nat)
    (hd : st._sheet_data = some d) (hh : st._sheet_headers = some hs)
    (hmid : List.lookup ctx.model_id_field data = some mid)
    (hsid : listIndex hs ctx.sheet_id_field = some sid) :
    upsert_data ctx data st
      = match findRowScanAux 0 d sid mid with
        | .ok (some i) =>
          (Except.ok (),
            { st with _sheet_data := some (d.set i (pureRow ctx hs data)) })
        | .ok none =>
          (Except.ok (),
            { st with _sheet_data := some (d ++ [pureRow ctx hs data]) })
        | .error e => (Except.error e, st) := by
  have hcollect := collectFieldIndexes_cached ctx st d hs (data.map Prod.fst)
    hd hh
  have hex := existing_row_cached ctx st d hs data mid sid hd hh hmid hsid
  cases hscan : findRowScanAux 0 d sid mid with
  | error e =>
    simp [upsert_data, hcollect, hex, hscan]
  | ok o =>
    cases o with
    | none =>
      simp [upsert_data, hcollect, hex, hscan,
        sheet_data_cached ctx st d hd, pureRow]
    | some i =>
      simp [upsert_data, hcollect, hex, hscan,
        sheet_data_cached ctx st d hd, pureRow]

theorem findRowScanAux_no_match (rows : List (List String)) (ix : Nat)
    (mid : String) (k : Nat)
    (hwide : ∀ r ∈ rows, ix < r.length)
    (hno : ∀ r ∈ rows, ¬r.get? ix = some mid) :
    findRowScanAux k rows ix mid = Except.ok none := by
  induction rows generalizing k with
  | nil => rfl
  | cons r rs ih =>
    obtain ⟨v, hv⟩ : ∃ v, r.get? ix = some v := by
      have hlt := hwide r (by simp)
      exact ⟨r.get ⟨ix, hlt⟩, List.get?_eq_get hlt⟩
    have hne : ¬v = mid := fun he => hno r (by simp) (he ▸ hv)
    unfold findRowScanAux
    rw [hv]
    simp only [hne, if_false]
    exact ih (k + 1) (fun r hr => hwide r (by simp [hr]))
      (fun r hr => hno r (by simp [hr]))

theorem findRowScanAux_first_match (rows : List (List String)) (ix : Nat)
    (mid : String) (j k : Nat) (r : List String)
    (hwide : ∀ r ∈ rows, ix < r.length)
    (hj : rows.get? j = some r) (hr : r.get? ix = some mid)
    (hfirst : ∀ m rm, m < j → rows.get? m = some rm →
      ¬rm.get? ix = some mid) :
    findRowScanAux k rows ix mid = Except.ok (some (k + j)) := by
  induction rows generalizing k j with
  | nil => simp at hj
  | cons r0 rs ih =>
    cases j with
    | zero =>
      rw [List.get?_cons_zero] at hj
      injection hj with hj
      unfold findRowScanAux
      rw [hj, hr]
      simp
    | succ j' =>
      rw [List.get?_cons_succ] at hj
      obtain ⟨v, hv⟩ : ∃ v, r0.get? ix = some v := by
        have hlt := hwide r0 (by simp)
        exact ⟨r0.get ⟨ix, hlt⟩, List.get?_eq_get hlt⟩
      have hne : ¬v = mid := by
        intro he
        exact hfirst 0 r0 (Nat.succ_pos j') List.get?_cons_zero
          (by rw [hv, he])
      unfold findRowScanAux
      rw [hv]
      simp only [hne, if_false]
      have hih := ih j' (k + 1)
        (fun r hmem => hwide r (by simp [hmem])) hj
        (fun m rm hm hmr =>
          hfirst (m + 1) rm (Nat.succ_lt_succ hm)
            (by rw [List.get?_cons_succ]; exact hmr))
      rw [hih]
      congr 2
      omega

/-! ## Claims about the per-record upsert: C2, C7, C9, C10 -/

/-- C2: on a session with populated caches, headers containing the hidden-ID
column at `sid`, the pushed data containing the model identifier with value
`mid`, and every cached row wide enough to have a hidden-ID cell: if `mid`
equals the hidden-ID cell of some cached row, `upsert_data` overwrites the
first such row in place with the freshly computed row and the cached row
count is unchanged; if `mid` matches no cached row, exactly one new row is
appended and the row count increases by one. -/
theorem C2_upsert_data (ctx : GSheetCtx) (hs : List String)
    (rows : List (List String)) (n : Nat) (data : List (String × String))
    (mid : String) (sid : Nat)
    (hmid : List.lookup ctx.model_id_field data = some mid)
    (hsid : listIndex hs ctx.sheet_id_field = some sid)
    (hwide : ∀ r ∈ rows, sid < r.length) :
    (∀ j r, rows.get? j = some r → r.get? sid = some mid →
      (∀ m rm, m < j → rows.get? m = some rm → ¬rm.get? sid = some mid) →
      upsert_data ctx data ⟨some rows, some hs, n⟩
        = (Except.ok (),
            ⟨some (rows.set j (pureRow ctx hs data)), some hs, n⟩)
      ∧ (rows.set j (pureRow ctx hs data)).length = rows.length) ∧
    ((∀ r ∈ rows, ¬r.get? sid = some mid) →
      upsert_data ctx data ⟨some rows, some hs, n⟩
        = (Except.ok (),
            ⟨some (rows ++ [pureRow ctx hs data]), some hs, n⟩)
      ∧ (rows ++ [pureRow ctx hs data]).length = rows.length + 1) := by
  have hbase := upsert_data_cached ctx ⟨some rows, some hs, n⟩ rows hs data
    mid sid rfl rfl hmid hsid
  constructor
  · intro j r hj hr hfirst
    have hscan := findRowScanAux_first_match rows sid mid j 0 r hwide hj hr
      hfirst
    rw [hscan] at hbase
    refine ⟨?_, List.length_set rows j _⟩
    simpa using hbase
  · intro hno
    have hscan := findRowScanAux_no_match rows sid mid 0 hwide hno
    rw [hscan] at hbase
    exact ⟨by simpa using hbase, by simp⟩

/-- Witness for C2 at the spec's scenario: headers ["Name", "Django GUID"],
data [["Alice", "id-1"]]; pushing id-1 overwrites in place, pushing id-2
appends. -/
theorem C2_upsert_data_witness :
    upsert_data {} [("id", "id-1"), ("Name", "Alicia")]
        ⟨some [["Alice", "id-1"]], some ["Name", "Django GUID"], 1⟩
      = (Except.ok (),
          ⟨some [["Alicia", "id-1"]], some ["Name", "Django GUID"], 1⟩) ∧
    upsert_data {} [("id", "id-2"), ("Name", "Bob")]
        ⟨some [["Alice", "id-1"]], some ["Name", "Django GUID"], 1⟩
      = (Except.ok (),
          ⟨some [["Alice", "id-1"], ["Bob", "id-2"]],
            some ["Name", "Django GUID"], 1⟩) := by
  have h1 := (C2_upsert_data {} ["Name", "Django GUID"] [["Alice", "id-1"]] 1
      [("id", "id-1"), ("Name", "Alicia")] "id-1" 1 rfl rfl (by decide)).1
      0 ["Alice", "id-1"] rfl rfl
      (fun m rm hm _ => absurd hm (Nat.not_lt_zero m))
  have h2 := (C2_upsert_data {} ["Name", "Django GUID"] [["Alice", "id-1"]] 1
      [("id", "id-2"), ("Name", "Bob")] "id-2" 1 rfl rfl (by decide)).2
      (by decide)
  exact ⟨h1.1, h2.1⟩

/-- C10: `existing_row` raises `KeyError` (leaving the instance untouched)
whenever the pushed data lacks the model identifier field; and on a session
whose snapshot cache is populated, every call — match, no match, or error —
returns with the instance state (headers cache, data cache, fetch count)
exactly unchanged. -/
theorem C10_existing_row (ctx : GSheetCtx) (data : List (String × String))
    (st : SheetState) :
    (List.lookup ctx.model_id_field data = none →
      existing_row ctx data st = (Except.error PyErr.keyError, st)) ∧
    ((∃ d, st._sheet_data = some d) → (existing_row ctx data st).2 = st) := by
  constructor
  · intro h
    simp [existing_row, h]
  · rintro ⟨d, hd⟩
    unfold existing_row
    cases hl : List.lookup ctx.model_id_field data with
    | none => simp
    | some mid =>
      have hh := sheet_headers_cached ctx st d hd
      cases hhead : st._sheet_headers with
      | none => simp [column_index, hh, hhead]
      | some hs =>
        cases hi : listIndex hs ctx.sheet_id_field with
        | none => simp [column_index, hh, hhead, hi]
        | some sid =>
          simp [column_index, hh, hhead, hi, sheet_data_cached ctx st d hd]

/-- Witness for C10: a call without the identifier key errors with the state
untouched; a call on a populated session returns the state unchanged. -/
theorem C10_existing_row_witness :
    existing_row {} [("x", "y")] freshState
      = (Except.error PyErr.keyError, freshState) ∧
    (existing_row {} [("id", "id-9")]
        ⟨some [["Alice", "id-1"]], some ["Name", "Django GUID"], 1⟩).2
      = ⟨some [["Alice", "id-1"]], some ["Name", "Django GUID"], 1⟩ :=
  ⟨(C10_existing_row {} [("x", "y")] freshState).1 rfl,
    (C10_existing_row {} [("id", "id-9")]
      ⟨some [["Alice", "id-1"]], some ["Name", "Django GUID"], 1⟩).2
      ⟨[["Alice", "id-1"]], rfl⟩⟩

/-! ## Lemmas about the stable sort by column index -/

theorem mem_insertByKey (p q : String × Nat) (l : List (String × Nat)) :
    q ∈ insertByKey p l ↔ q = p ∨ q ∈ l := by
  induction l with
  | nil => simp [insertByKey]
  | cons a t ih =>
    by_cases h : p.2 < a.2
    · simp [insertByKey, h]
    · simp [insertByKey, h, ih]
      tauto

theorem mem_sortByIx_fold (l acc : List (String × Nat)) (q : String × Nat) :
    q ∈ l.foldl (fun acc p => insertByKey p acc) acc ↔ q ∈ acc ∨ q ∈ l := by
  induction l generalizing acc with
  | nil => simp
  | cons a t ih =>
    rw [List.foldl_cons, ih, mem_insertByKey]
    simp
    tauto

theorem mem_sortByIx (l : List (String × Nat)) (q : String × Nat) :
    q ∈ sortByIx l ↔ q ∈ l := by
  rw [sortByIx, mem_sortByIx_fold]
  simp

theorem length_insertByKey (p : String × Nat) (l : List (String × Nat)) :
    (insertByKey p l).length = l.length + 1 := by
  induction l with
  | nil => rfl
  | cons a t ih =>
    by_cases h : p.2 < a.2
    · simp [insertByKey, h]
    · simp [insertByKey, h, ih]

theorem length_sortByIx_fold (l acc : List (String × Nat)) :
    (l.foldl (fun acc p => insertByKey p acc) acc).length
      = acc.length + l.length := by
  induction l generalizing acc with
  | nil => rfl
  | cons a t ih =>
    rw [List.foldl_cons, ih, length_insertByKey, List.length_cons]
    omega

theorem length_sortByIx (l : List (String × Nat)) :
    (sortByIx l).length = l.length := by
  rw [sortByIx, length_sortByIx_fold]
  simp

theorem sorted_insertByKey (p : String × Nat) (l : List (String × Nat))
    (h : List.Sorted (fun a b : String × Nat => a.2 ≤ b.2) l) :
    List.Sorted (fun a b : String × Nat => a.2 ≤ b.2) (insertByKey p l) := by
  induction l with
  | nil => simp [insertByKey]
  | cons q qs ih =>
    rw [List.sorted_cons] at h
    by_cases hpq : p.2 < q.2
    · rw [show insertByKey p (q :: qs) = p :: q :: qs by simp [insertByKey, hpq]]
      rw [List.sorted_cons]
      constructor
      · intro b hb
        rcases List.mem_cons.mp hb with hb | hb
        · rw [hb]; exact Nat.le_of_lt hpq
        · exact le_trans (Nat.le_of_lt hpq) (h.1 b hb)
      · rw [List.sorted_cons]
        exact h
    · rw [show insertByKey p (q :: qs) = q :: insertByKey p qs by
        simp [insertByKey, hpq]]
      rw [List.sorted_cons]
      constructor
      · intro b hb
        rcases (mem_insertByKey p b qs).mp hb with hb | hb
        · rw [hb]; exact Nat.le_of_not_lt hpq
        · exact h.1 b hb
      · exact ih h.2

theorem sorted_sortByIx_fold (l acc : List (String × Nat))
    (hacc : List.Sorted (fun a b : String × Nat => a.2 ≤ b.2) acc) :
    List.Sorted (fun a b : String × Nat => a.2 ≤ b.2)
      (l.foldl (fun acc p => insertByKey p acc) acc) := by
  induction l generalizing acc with
  | nil => exact hacc
  | cons a t ih => exact ih (insertByKey a acc) (sorted_insertByKey a acc hacc)

theorem sorted_sortByIx (l : List (String × Nat)) :
    List.Sorted (fun a b : String × Nat => a.2 ≤ b.2) (sortByIx l) :=
  sorted_sortByIx_fold l [] (by simp)

theorem findRowScanAux_total (rows : List (List String)) (ix : Nat)
    (mid : String) (k : Nat) (hwide : ∀ r ∈ rows, ix < r.length) :
    ∃ o, findRowScanAux k rows ix mid = Except.ok o := by
  induction rows generalizing k with
  | nil => exact ⟨none, rfl⟩
  | cons r rs ih =>
    obtain ⟨v, hv⟩ : ∃ v, r.get? ix = some v := by
      have hlt := hwide r (by simp)
      exact ⟨r.get ⟨ix, hlt⟩, List.get?_eq_get hlt⟩
    unfold findRowScanAux
    rw [hv]
    by_cases hveq : v = mid
    · exact ⟨some k, by simp [hveq]⟩
    · obtain ⟨o, ho⟩ := ih (k + 1) (fun r hr => hwide r (by simp [hr]))
      exact ⟨o, by simp [hveq, ho]⟩

/-- C7: on a populated session, a pushed field whose (redirected) name is
absent from the header row is omitted from the constructed row without
raising — `upsert_data` still succeeds — while exactly the fields with
matching headers are assembled (each contributing one entry of the sorted
pair list the row is built from) and the resulting row is upserted into the
cache. -/
theorem C7_upsert_data_skips_absent (ctx : GSheetCtx) (hs : List String)
    (rows : List (List String)) (n : Nat) (data : List (String × String))
    (mid : String) (sid : Nat)
    (hmid : List.lookup ctx.model_id_field data = some mid)
    (hsid : listIndex hs ctx.sheet_id_field = some sid)
    (hwide : ∀ r ∈ rows, sid < r.length) :
    ∃ st',
      upsert_data ctx data ⟨some rows, some hs, n⟩ = (Except.ok (), st') ∧
      ((∃ j, st'._sheet_data = some (rows.set j (pureRow ctx hs data))) ∨
        st'._sheet_data = some (rows ++ [pureRow ctx hs data])) ∧
      ∀ f : String,
        (∃ ix, (f, ix) ∈ sortByIx (resolvedIndexes ctx hs (data.map Prod.fst)))
          ↔ f ∈ data.map Prod.fst ∧
            (listIndex hs
              (if f = ctx.model_id_field then ctx.sheet_id_field else f)).isSome
              = true := by
  have hbase := upsert_data_cached ctx ⟨some rows, some hs, n⟩ rows hs data
    mid sid rfl rfl hmid hsid
  have hfields : ∀ f : String,
      (∃ ix, (f, ix) ∈ sortByIx (resolvedIndexes ctx hs (data.map Prod.fst)))
        ↔ f ∈ data.map Prod.fst ∧
          (listIndex hs
            (if f = ctx.model_id_field then ctx.sheet_id_field else f)).isSome
            = true := by
    intro f
    constructor
    · rintro ⟨ix, hmem⟩
      rw [mem_sortByIx, resolvedIndexes, List.mem_filterMap] at hmem
      obtain ⟨g, hg, hres⟩ := hmem
      rw [Option.map_eq_some'] at hres
      obtain ⟨a, ha, heq⟩ := hres
      injection heq with hgf hai
      subst hgf
      exact ⟨hg, by rw [ha]; rfl⟩
    · rintro ⟨hf, hsome⟩
      obtain ⟨ix, hix⟩ := Option.isSome_iff_exists.mp hsome
      refine ⟨ix, ?_⟩
      rw [mem_sortByIx, resolvedIndexes, List.mem_filterMap]
      exact ⟨f, hf, by rw [hix]; rfl⟩
  obtain ⟨o, ho⟩ := findRowScanAux_total rows sid mid 0 hwide
  rw [ho] at hbase
  cases o with
  | some i =>
    refine ⟨⟨some (rows.set i (pureRow ctx hs data)), some hs, n⟩, ?_, ?_, hfields⟩
    · simpa using hbase
    · exact Or.inl ⟨i, rfl⟩
  | none =>
    refine ⟨⟨some (rows ++ [pureRow ctx hs data]), some hs, n⟩, ?_, ?_, hfields⟩
    · simpa using hbase
    · exact Or.inr rfl

/-- Witness for C7: pushing a record with a field ("Age") that has no sheet
header still succeeds. -/
theorem C7_upsert_data_skips_absent_witness :
    ∃ st', upsert_data {} [("id", "id-1"), ("Name", "Bob"), ("Age", "33")]
        ⟨some [], some ["Name", "Django GUID"], 1⟩ = (Except.ok (), st') := by
  obtain ⟨st', h1, _, _⟩ := C7_upsert_data_skips_absent {}
    ["Name", "Django GUID"] [] 1 [("id", "id-1"), ("Name", "Bob"), ("Age", "33")]
    "id-1" 1 rfl rfl (by simp)
  exact ⟨st', h1⟩

/-- C9 counterexample: with headers ["A", "B", "Django GUID"], pushing only
the identifier field (header-assigned column index 2) constructs the row
["x"] — one compacted cell, not one value per column — whose single value
sits at position 0, not at its header-assigned index 2, where the row has
no cell at all.  This falsifies the claimed alignment invariant. -/
theorem C9_counterexample :
    upsert_data {} [("id", "x")] ⟨some [], some ["A", "B", "Django GUID"], 1⟩
      = (Except.ok (), ⟨some [["x"]], some ["A", "B", "Django GUID"], 1⟩) ∧
    listIndex ["A", "B", "Django GUID"] "Django GUID" = some 2 ∧
    (["x"] : List String).get? 2 = none ∧
    (["x"] : List String).length ≠ (["A", "B", "Django GUID"] : List String).length :=
  ⟨rfl, rfl, rfl, by decide⟩

/-- C9 amended: the row constructed by `upsert_data` is the pushed values in
nondecreasing header-column order, compacted to one entry per resolvable
field (so its length is the number of resolved fields, not the header
width); the constructed row is what gets stored by the upsert; and whenever
the resolved column indexes are exactly 0..k-1, each field's value does sit
at the column index the header row assigns to it. -/
theorem C9_upsert_data_amended (ctx : GSheetCtx) (hs : List String)
    (rows : List (List String)) (n : Nat) (data : List (String × String))
    (mid : String) (sid : Nat)
    (hmid : List.lookup ctx.model_id_field data = some mid)
    (hsid : listIndex hs ctx.sheet_id_field = some sid)
    (hwide : ∀ r ∈ rows, sid < r.length) :
    List.Sorted (fun a b : String × Nat => a.2 ≤ b.2)
      (sortByIx (resolvedIndexes ctx hs (data.map Prod.fst))) ∧
    (pureRow ctx hs data).length
      = (resolvedIndexes ctx hs (data.map Prod.fst)).length ∧
    (∃ st',
      upsert_data ctx data ⟨some rows, some hs, n⟩ = (Except.ok (), st') ∧
      ((∃ j, st'._sheet_data = some (rows.set j (pureRow ctx hs data))) ∨
        st'._sheet_data = some (rows ++ [pureRow ctx hs data]))) ∧
    ∀ k : Nat,
      (sortByIx (resolvedIndexes ctx hs (data.map Prod.fst))).map Prod.snd
          = List.range k →
      ∀ p ∈ resolvedIndexes ctx hs (data.map Prod.fst),
        (pureRow ctx hs data).get? p.2
          = some ((List.lookup p.1 data).getD "") := by
  refine ⟨sorted_sortByIx _, ?_, ?_, ?_⟩
  · rw [pureRow, List.length_map, length_sortByIx]
  · have hbase := upsert_data_cached ctx ⟨some rows, some hs, n⟩ rows hs data
      mid sid rfl rfl hmid hsid
    obtain ⟨o, ho⟩ := findRowScanAux_total rows sid mid 0 hwide
    rw [ho] at hbase
    cases o with
    | some i =>
      exact ⟨⟨some (rows.set i (pureRow ctx hs data)), some hs, n⟩,
        by simpa using hbase, Or.inl ⟨i, rfl⟩⟩
    | none =>
      exact ⟨⟨some (rows ++ [pureRow ctx hs data]), some hs, n⟩,
        by simpa using hbase, Or.inr rfl⟩
  · intro k hk p hp
    have hpS : p ∈ sortByIx (resolvedIndexes ctx hs (data.map Prod.fst)) :=
      (mem_sortByIx _ p).mpr hp
    obtain ⟨m, hm⟩ := List.mem_iff_get?.mp hpS
    have hsnd : (List.range k).get? m = some p.2 := by
      rw [← hk, List.get?_map, hm]
      rfl
    have hmk : m < k := by
      by_contra hge
      rw [List.get?_eq_none.mpr (by simpa using Nat.le_of_not_lt hge)] at hsnd
      cases hsnd
    have hpm : p.2 = m := by
      rw [List.get?_range hmk] at hsnd
      injection hsnd with h
      exact h.symm
    rw [pureRow, hpm, List.get?_map, hm]
    rfl

/-- Witness for the amended C9: with headers ["Name", "Django GUID"] and a
record pushing both fields, the resolved indexes are exactly 0..1 and each
value lands at its header-assigned index. -/
theorem C9_upsert_data_amended_witness :
    (pureRow {} ["Name", "Django GUID"] [("id", "id-1"), ("Name", "Bob")]).get? 1
      = some "id-1" ∧
    (pureRow {} ["Name", "Django GUID"] [("id", "id-1"), ("Name", "Bob")]).get? 0
      = some "Bob" := by
  have h := (C9_upsert_data_amended {} ["Name", "Django GUID"] [] 1
    [("id", "id-1"), ("Name", "Bob")] "id-1" 1 rfl rfl (by simp)).2.2.2 2
    (by decide)
  exact ⟨h ("id", 1) (by decide), h ("Name", 0) (by decide)⟩

/-- C8: on a fresh session whose remote range holds a header row `hd` (and
data rows `tl`) with `field` at header index `i`, the first `column_index`
call performs exactly one remote fetch and returns `i`; calling
`column_index` again returns the same index with the state (hence the fetch
count) unchanged, and `sheet_headers` and `sheet_data` accesses after the
first fetch are likewise served from the cache without further remote
reads. -/
theorem C8_column_index_idempotent (ctx : GSheetCtx) (field : String)
    (hd : List String) (tl : List (List String)) (i : Nat)
    (hrem : ctx.remote = hd :: tl)
    (hfield : listIndex hd field = some i) :
    ∃ st1,
      column_index ctx field freshState = (Except.ok i, st1) ∧
      st1.fetchCount = 1 ∧
      column_index ctx field st1 = (Except.ok i, st1) ∧
      sheet_headers ctx st1 = (Except.ok (some hd), st1) ∧
      sheet_data ctx st1 = (Except.ok tl, st1) := by
  refine ⟨⟨some tl, some hd, 1⟩, ?_, rfl, ?_, ?_, ?_⟩
  · unfold column_index sheet_headers sheet_data freshState
    simp [hrem, hfield]
  · exact column_index_cached_found ctx ⟨some tl, some hd, 1⟩ tl hd field i
      rfl rfl hfield
  · exact sheet_headers_cached ctx ⟨some tl, some hd, 1⟩ tl rfl
  · exact sheet_data_cached ctx ⟨some tl, some hd, 1⟩ tl rfl

/-- Witness for C8: looking up the hidden-ID column twice on a two-row
remote sheet fetches once and returns index 1 both times. -/
theorem C8_column_index_idempotent_witness :
    ∃ st1,
      column_index { remote := [["Name", "Django GUID"], ["Alice", "id-1"]] }
          "Django GUID" freshState = (Except.ok 1, st1) ∧
      st1.fetchCount = 1 ∧
      column_index { remote := [["Name", "Django GUID"], ["Alice", "id-1"]] }
          "Django GUID" st1 = (Except.ok 1, st1) := by
  obtain ⟨st1, h1, h2, h3, _, _⟩ := C8_column_index_idempotent
    { remote := [["Name", "Django GUID"], ["Alice", "id-1"]] } "Django GUID"
    ["Name", "Django GUID"] [["Alice", "id-1"]] 1 rfl rfl
  exact ⟨st1, h1, h2, h3⟩

/-! ## Claims about the batched table upsert: C1, C3 -/

theorem pySliceFrom_natural {α : Type} (l : List α) (k : Nat) :
    pySliceFrom l (k : Int) = l.drop k := by
  unfold pySliceFrom pyIndexNorm
  rw [if_neg (by omega), Int.toNat_natCast]
  rcases Nat.le_total k l.length with h | h
  · rw [Nat.min_eq_left h]
  · rw [Nat.min_eq_right h, List.drop_eq_nil_of_le le_rfl,
      List.drop_eq_nil_of_le h]

/-- C3: whenever `upsert_table` performs the final flush after the record
loop completes (i.e. `last_writeout < len(queryset)`), the written range
starts at row `max 2 last_writeout` — never below 2, so with the default
range (header at row 1) the header row is never overwritten — ends at the
configured end row, and the payload is the slice of the cached data rows
from the last flush point onward. -/
theorem C3_final_flush (ctx : GSheetCtx)
    (queryset : List (List (String × String))) (st st' st'' : SheetState)
    (cs ce : String) (rs re : Nat) (lw : Nat) (acc : List Writeout)
    (d : List (List String))
    (hcols : sheet_range_cols (get_sheet_range ctx.sheet_name ctx.data_range)
      ctx.max_col = Except.ok (cs, ce))
    (hrows : sheet_range_rows (get_sheet_range ctx.sheet_name ctx.data_range)
      ctx.max_rows = Except.ok (rs, re))
    (hloop : upsertLoop ctx cs ce rs 0 0 queryset [] st
      = (Except.ok (lw, acc), st'))
    (hfin : lw < queryset.length)
    (hdata : sheet_data ctx st' = (Except.ok d, st'')) :
    upsert_table ctx queryset st
      = (Except.ok (acc ++ [⟨get_sheet_range ctx.sheet_name
            (cs ++ toString (max 2 lw) ++ ":" ++ ce ++ toString re),
          d.drop lw⟩]), st'') ∧
    2 ≤ max 2 lw := by
  refine ⟨?_, Nat.le_max_left 2 lw⟩
  simp [upsert_table, hcols, hrows, hloop, hfin, hdata, pySliceFrom_natural]

/-- Witness for C3: one fresh record pushed into a header-only sheet; the
loop ends with `last_writeout = 0 < 1`, and the final flush covers
"Sheet1!A2:Z30000" with the whole (one-row) cache. -/
theorem C3_final_flush_witness :
    upsert_table { remote := [["Name", "Django GUID"]] }
        [[("id", "id-0"), ("Name", "N-0")]] freshState
      = (Except.ok [⟨"Sheet1!A2:Z30000", [["N-0", "id-0"]]⟩],
          ⟨some [["N-0", "id-0"]], some ["Name", "Django GUID"], 1⟩) := by
  have h := (C3_final_flush { remote := [["Name", "Django GUID"]] }
    [[("id", "id-0"), ("Name", "N-0")]] freshState
    ⟨some [["N-0", "id-0"]], some ["Name", "Django GUID"], 1⟩
    ⟨some [["N-0", "id-0"]], some ["Name", "Django GUID"], 1⟩
    "A" "Z" 1 30000 0 [] [["N-0", "id-0"]]
    rfl rfl rfl (by decide) rfl).1
  exact h

/-- C1 (code-bug evidence): evaluating `upsert_table` with batch size 2, an
initially header-only sheet and 5 fresh records.  Exactly 3 flushes occur,
and the periodic flushes target the claimed ranges "Sheet1!A4:Z6" and
"Sheet1!A6:Z8" — but they carry 0 cached rows each, not 2: the flush at
index i happens before records i and i+1 are upserted, so the cache slice
[2,4) (resp. [4,6)) is empty when the cache holds only 2 (resp. 4) rows.
Only the final flush carries data (1 row), so rows 0-3 are never written
out.  The claimed payload profile (2, 2, 1) is unachievable: the final
payload `sheet_data[4:]` has length 1 only if the cache ends with 5 rows,
while the periodic slice [4,6) has length 2 only if the cache already had
at least 6 rows earlier, and the cache never shrinks. -/
theorem C1_upsert_table_eval :
    (upsert_table { batch_size := 2, remote := [["Name", "Django GUID"]] }
        [[("id", "id-0"), ("Name", "N-0")], [("id", "id-1"), ("Name", "N-1")],
          [("id", "id-2"), ("Name", "N-2")], [("id", "id-3"), ("Name", "N-3")],
          [("id", "id-4"), ("Name", "N-4")]] freshState).1
      = Except.ok
          [⟨"Sheet1!A4:Z6", []⟩, ⟨"Sheet1!A6:Z8", []⟩,
            ⟨"Sheet1!A4:Z30000", [["N-4", "id-4"]]⟩] := rfl

end GSheets
